import Mathlib

/-!
Shallow embedding of the legal-document-analyzer ingestion and retrieval
pipeline (src/ingest_stanford.py, src/ingest_sec.py, src/app.py), together
with theorems checking the natural-language specification against it.

Text is modelled as `List Char`; machine strings that only act as labels
stay `String`.  Optional values standing for Python `None` use `Option`,
and Python truthiness of optional strings is made explicit.
-/

namespace LegalDoc

/-- Python truthiness of an optional string: `None` and the empty string
are falsy, every other string is truthy. -/
def strTruthy : Option String → Bool
  | none => false
  | some s => !s.isEmpty

/-- `startsWithL hay pre` is true when `pre` is a prefix of `hay`
(model of Python `str.startswith`). -/
def startsWithL : List Char → List Char → Bool
  | _, [] => true
  | [], _ :: _ => false
  | a :: as, b :: bs => a == b && startsWithL as bs

/-- `containsL hay needle` is true when `needle` occurs as a contiguous
substring of `hay` (model of Python `needle in hay`). -/
def containsL : List Char → List Char → Bool
  | [], needle => needle.isEmpty
  | hay@(_ :: tl), needle => startsWithL hay needle || containsL tl needle

/-- Lower-casing of a character list (model of Python `str.lower`). -/
def strLower (s : List Char) : List Char := s.map Char.toLower

/-- Contract-type classification from the filename, translated from the
`if`/`elif` chain in `load_stanford_contracts`
(src/ingest_stanford.py lines 77-90). -/
def classifyFilename (filename : String) : String :=
  let fl := strLower filename.data
  if (["employ".data, "compensation".data, "severance".data]).any (fun w => containsL fl w) then
    "Employment"
  else if (["merger".data, "acquisition".data, "merger agreement".data]).any (fun w => containsL fl w) then
    "M&A"
  else if (["lease".data, "rental".data]).any (fun w => containsL fl w) then
    "Lease"
  else if (["credit".data, "loan".data, "security".data, "note".data]).any (fun w => containsL fl w) then
    "Security"
  else if (["service".data, "consulting".data, "professional".data]).any (fun w => containsL fl w) then
    "Services"
  else
    "Other"

/-- The classification expressed as explicit data: an ordered list of
(keyword set, label) rules, in the precedence order of the source. -/
def ruleTable : List (List (List Char) × String) :=
  [(["employ".data, "compensation".data, "severance".data], "Employment"),
   (["merger".data, "acquisition".data, "merger agreement".data], "M&A"),
   (["lease".data, "rental".data], "Lease"),
   (["credit".data, "loan".data, "security".data, "note".data], "Security"),
   (["service".data, "consulting".data, "professional".data], "Services")]

/-- First-match-wins evaluation of an ordered rule table, with default
label when no rule matches.  This is the spec-side reading of
classification as an ordered rule table. -/
def applyRules : List (List (List Char) × String) → List Char → String
  | [], _ => "Other"
  | (kws, label) :: rest, fl =>
    if kws.any (fun w => containsL fl w) then label else applyRules rest fl

/-- C7: document-type classification is a pure function of the filename
equal to first-match-wins evaluation of the ordered rule table with
precedence Employment, M&A, Lease, Security (financing), Services and
default label Other.  Determinism is inherent: `classifyFilename` is a
pure Lean function, so identical inputs give identical labels. -/
theorem classify_is_ordered_rule_table (filename : String) :
    classifyFilename filename = applyRules ruleTable (strLower filename.data) := by
  rfl

/-! ### Answer synthesizer: `query_huggingface` (src/app.py lines 367-414) -/

/-- Outcome of parsing the generation response body, as consumed by the
200 branch of `query_huggingface`: either a JSON list whose items may
carry a `generated_text` field (with the `str(result)` fallback text),
or some other JSON value rendered by `str(result)`. -/
inductive GenJson where
  | listRes (items : List (Option String)) (reprStr : String)
  | otherRes (reprStr : String)

/-- Outcome of the `requests.post` generation call: an HTTP response with
status code, body text and body-parse outcome (`response.json()` may
itself raise, which stays inside the `try`), or a raised
network/timeout exception with its message. -/
inductive CallOutcome where
  | success (status : Nat) (body : String) (jsonRes : Except String GenJson)
  | raised (msg : String)

/-- The 200 branch body: `result[0].get('generated_text', str(result))`
when the parsed value is a non-empty list, else `str(result)`. -/
def jsonAnswer : GenJson → String
  | .listRes (some g :: _) _ => g
  | .listRes (none :: _) r => r
  | .listRes [] r => r
  | .otherRes r => r

/-- Demo-mode answer returned when no HF token is configured. -/
def demoMsg : String :=
  "⚠️ Demo mode: No HF_TOKEN provided. Add your token to enable AI responses."

/-- Answer returned on HTTP 503 (model loading). -/
def warmingMsg : String :=
  "⏳ Model is loading on Hugging Face servers. Please try again in a few seconds."

/-- The full prompt built by `query_huggingface`: fixed instructions, the
context truncated to 2000 characters, and the question. -/
def full_prompt (prompt context : String) : String :=
  "You are a legal document analyst. Based on the following contract excerpts, answer the question.\n\nContext:\n"
    ++ String.mk (context.data.take 2000)
    ++ "\n\nQuestion: " ++ prompt
    ++ "\n\nProvide a concise, accurate answer based only on the context. If the answer cannot be found, say so.\nAnswer:"

/-- `query_huggingface` (src/app.py lines 367-414).  Returns the answer
string together with the number of HTTP requests issued on the executed
path (0 on the demo-mode early return, 1 otherwise).  The network
outcome is passed in as `outcome`; the prompt and context only shape the
payload, not the control flow. -/
def query_huggingface (hfToken : Option String) (prompt context : String)
    (outcome : CallOutcome) : String × Nat :=
  if strTruthy hfToken = false then
    (demoMsg, 0)
  else
    match outcome with
    | .raised e => ("❌ Error: " ++ e, 1)
    | .success status body jsonRes =>
      if status = 200 then
        match jsonRes with
        | .ok j => (jsonAnswer j, 1)
        | .error e => ("❌ Error: " ++ e, 1)
      else if status = 503 then
        (warmingMsg, 1)
      else
        ("❌ API Error " ++ toString status ++ ": " ++ body, 1)

/-- C2: with a credential configured, every outcome of the generation
call resolves to an answer string: 503 gives the warming-up message, any
other non-200 status gives a message carrying the code and body, a
raised exception gives the generic failure message, and a 200 response
gives the parsed (or fallback) generated text.  The function is total,
so no branch propagates an exception. -/
theorem query_huggingface_total_on_outcomes (tok : Option String) (p c : String)
    (htok : strTruthy tok = true) :
    (∀ body jsonRes, query_huggingface tok p c (.success 503 body jsonRes) = (warmingMsg, 1)) ∧
    (∀ status body jsonRes, status ≠ 200 → status ≠ 503 →
      query_huggingface tok p c (.success status body jsonRes)
        = ("❌ API Error " ++ toString status ++ ": " ++ body, 1)) ∧
    (∀ e, query_huggingface tok p c (.raised e) = ("❌ Error: " ++ e, 1)) ∧
    (∀ body j, query_huggingface tok p c (.success 200 body (.ok j)) = (jsonAnswer j, 1)) ∧
    (∀ body e, query_huggingface tok p c (.success 200 body (.error e))
        = ("❌ Error: " ++ e, 1)) := by
  refine ⟨fun body jsonRes => by simp [query_huggingface, htok],
    fun status body jsonRes h200 h503 => by simp [query_huggingface, htok, h200, h503],
    fun e => by simp [query_huggingface, htok],
    fun body j => by simp [query_huggingface, htok],
    fun body e => by simp [query_huggingface, htok]⟩

/-- C2 witness: a concrete non-200, non-503 response resolves to the
API-error message carrying code and body. -/
theorem query_huggingface_total_on_outcomes_witness :
    query_huggingface (some "tok") "q" "ctx" (.success 404 "not found" (.ok (.otherRes "r")))
      = ("❌ API Error " ++ toString (404 : Nat) ++ ": " ++ "not found", 1) :=
  (query_huggingface_total_on_outcomes (some "tok") "q" "ctx" (by decide)).2.1
    404 "not found" (.ok (.otherRes "r")) (by decide) (by decide)

/-- C3: with no credential configured (token absent or empty, the falsy
values of the Python check), `query_huggingface` returns the demo-mode
message and issues zero HTTP requests, whatever the prompt, context and
hypothetical network outcome. -/
theorem query_huggingface_demo_mode (tok : Option String) (p c : String)
    (outcome : CallOutcome) (htok : strTruthy tok = false) :
    query_huggingface tok p c outcome = (demoMsg, 0) := by
  simp [query_huggingface, htok]

/-- C3 witness: with the token unset, a concrete query returns the
demo-mode message with zero network calls. -/
theorem query_huggingface_demo_mode_witness :
    query_huggingface none "What is the notice period?" "ctx"
      (.success 200 "b" (.ok (.otherRes "r"))) = (demoMsg, 0) :=
  query_huggingface_demo_mode none "What is the notice period?" "ctx"
    (.success 200 "b" (.ok (.otherRes "r"))) (by decide)

/-! ### Retrieval callback: `search_contracts` (src/app.py lines 426-515) -/

/-- The sample static-source context built when "stanford" is among the
selected sources (src/app.py lines 440-445, whitespace condensed). -/
def stanfordContextStr : String :=
  "Employment Agreement between TechCorp and John Smith dated 2023-01-15: Section 5. Termination. This Agreement may be terminated by either party upon thirty (30) days written notice."

/-- The sample live-source context built when "sec" is among the selected
sources (src/app.py lines 460-465, whitespace condensed). -/
def secContextStr : String :=
  "Apple Inc. Form 8-K filed 2024-02-20, Exhibit 10.1: Section 8. Termination. This Agreement may be terminated (a) by mutual written consent, (b) by either party upon 60 days written notice."

/-- What `search_contracts` assembles for a query: the source tags of the
citation entries in order, the context parts joined into the synthesizer
context, and the synthesized answer. -/
structure SearchOutput where
  citations : List String
  contextParts : List String
  answer : String

/-- `search_contracts` (src/app.py lines 426-515), restricted to the data
it assembles: per selected source it appends a context part and a tagged
citation, then hands the joined context to `query_huggingface`.  The
guard reproduces `if not n_clicks or not query`. -/
def search_contracts (hfToken : Option String) (nClicks : Nat) (query : String)
    (sources : List String) (outcome : CallOutcome) : SearchOutput :=
  if nClicks = 0 || query.isEmpty then
    ⟨[], [], "Enter a query above to analyze contracts."⟩
  else
    let s1 : List String × List String :=
      if sources.contains "stanford" then ([stanfordContextStr], ["Stanford MCC"])
      else ([], [])
    let s2 : List String × List String :=
      if sources.contains "sec" then (s1.1 ++ [secContextStr], s1.2 ++ ["SEC Live"])
      else s1
    let fullContext := String.intercalate "\n\n" s2.1
    ⟨s2.2, s2.1, (query_huggingface hfToken query fullContext outcome).1⟩

/-- C8: when the selected sources do not include "sec", the result
carries no "SEC Live"-tagged citation and the live sample text is not
among the context parts handed to the synthesizer. -/
theorem search_contracts_no_live_without_sec (hfToken : Option String)
    (nClicks : Nat) (query : String) (sources : List String)
    (outcome : CallOutcome) (hsec : "sec" ∉ sources) :
    ("SEC Live" ∈ (search_contracts hfToken nClicks query sources outcome).citations → False) ∧
    (secContextStr ∈ (search_contracts hfToken nClicks query sources outcome).contextParts → False) := by
  unfold search_contracts
  by_cases hg : nClicks = 0 || query.isEmpty <;>
    by_cases hst : "stanford" ∈ sources <;>
      simp [hg, hst, hsec, stanfordContextStr, secContextStr]

/-- C8 witness: a concrete query over sources `["stanford"]` yields no
"SEC Live" citation and no live context part. -/
theorem search_contracts_no_live_without_sec_witness :
    ("SEC Live" ∈ (search_contracts none 1 "What is the notice period?" ["stanford"]
        (.raised "e")).citations → False) ∧
    (secContextStr ∈ (search_contracts none 1 "What is the notice period?" ["stanford"]
        (.raised "e")).contextParts → False) :=
  search_contracts_no_live_without_sec none 1 "What is the notice period?" ["stanford"]
    (.raised "e") (by decide)

/-! ### Chunker model

Both ingestion scripts use `RecursiveCharacterTextSplitter` with
`chunk_size=1000, chunk_overlap=200`, an external library.  Modelled from
the spec: the chunker splits normalized text into segments of at most
1000 characters where consecutive chunks of a document overlap, and it
yields no chunk for empty text.  The claims settled here only rely on
the chunk count being a deterministic function of the text and on
non-empty text producing at least one chunk. -/

/-- Fuel-bounded splitter body; the fuel is an upper bound on the number
of steps (each step consumes at least 800 characters). -/
def splitTextGo : Nat → List Char → List (List Char)
  | _, [] => []
  | 0, t => [t]
  | fuel + 1, t =>
    if t.length ≤ 1000 then [t]
    else t.take 1000 :: splitTextGo fuel (t.drop 800)

/-- Split normalized text into chunks of at most 1000 characters with a
200-character overlap between consecutive chunks. -/
def splitText (t : List Char) : List (List Char) := splitTextGo t.length t

/-- Non-empty text yields at least one chunk. -/
theorem splitText_ne_nil (t : List Char) (h : t ≠ []) : splitText t ≠ [] := by
  unfold splitText
  cases t with
  | nil => exact absurd rfl h
  | cons a as =>
    unfold splitTextGo
    split
    · simp_all
    · simp
    · split <;> simp

/-! ### Static ingestion: `load_stanford_contracts` and `ingest_stanford`
(src/ingest_stanford.py lines 49-169) -/

/-- One raw file handed to the static connector: path, basename and the
text already extracted by `extract_text_from_html`. -/
structure RawFile where
  file_path : String
  filename : String
  text : List Char

/-- A `Document` produced by the static path (src/ingest_stanford.py
lines 92-101). -/
structure StanfordDoc where
  page_content : List Char
  source : String
  ctype : String
  source_type : String
  file_path : String
  size_chars : Nat

/-- The per-file body of the loop in `load_stanford_contracts`
(src/ingest_stanford.py lines 68-101): skip files whose extracted text
is shorter than 100 characters, classify by filename, store the text
truncated to 50000 characters and remember the full length. -/
def stanfordProcessFile (f : RawFile) : Option StanfordDoc :=
  if f.text.length < 100 then none
  else some
    { page_content := f.text.take 50000
      source := f.filename
      ctype := classifyFilename f.filename
      source_type := "stanford_mcc"
      file_path := f.file_path
      size_chars := f.text.length }

/-- `load_stanford_contracts` over an explicit file list: the documents
accumulated by the loop. -/
def load_stanford_contracts (files : List RawFile) : List StanfordDoc :=
  files.filterMap stanfordProcessFile

/-- Events observable during an ingestion batch: a document being
processed, and a durable write to the store. -/
inductive IngestEvent where
  | process
  | persist
deriving DecidableEq

/-- The event trace of `ingest_stanford` (src/ingest_stanford.py lines
106-169): every document is processed while loading, and the single
durable write (`Chroma.from_documents` followed by `persist`) happens once
at the end of the batch; with no documents the function returns early. -/
def stanfordTrace (files : List RawFile) : List IngestEvent :=
  let docs := load_stanford_contracts files
  if docs.isEmpty then []
  else docs.map (fun _ => IngestEvent.process) ++ [IngestEvent.persist]

/-- `perDocPersist tr = true` when every processed document is followed by
a durable write before the next document is processed.  The flag records
whether processing a new document is currently allowed. -/
def perDocAux : List IngestEvent → Bool → Bool
  | [], _ => true
  | .persist :: rest, _ => perDocAux rest true
  | .process :: rest, ok => ok && perDocAux rest false

/-- Per-document persistence of a batch trace. -/
def perDocPersist (tr : List IngestEvent) : Bool := perDocAux tr true

/-! ### Live ingestion: `download_contract_text` and `ingest_sec`
(src/ingest_sec.py lines 69-186) -/

/-- One entry of a filing record field `documentFormatFiles`. -/
structure FormatFile where
  ftype : String
  documentUrl : Option String

/-- A filing record as returned by the live source API. -/
structure Filing where
  documentFormatFiles : List FormatFile
  ticker : String
  companyName : String
  filedAt : String
  formType : String

/-- Metadata attached to a live document (src/ingest_sec.py lines
82-89). -/
structure SecMetadata where
  source : String
  source_type : String
  ticker : String
  company : String
  filed_at : String
  form_type : String

/-- The exhibit-selection loop of `download_contract_text`
(src/ingest_sec.py lines 73-77): scan `documentFormatFiles` in order and
stop at the first entry whose type starts with "EX-10", taking its
(possibly missing) URL. -/
def findExhibit : List FormatFile → Option String
  | [] => none
  | d :: rest =>
    if startsWithL d.ftype.data "EX-10".data then d.documentUrl
    else findExhibit rest

/-- Truncation applied by the live path (src/ingest_sec.py lines
106-108): text beyond 50000 characters is cut at the cap and the marker
is appended. -/
def secTruncate (t : List Char) : List Char :=
  if t.length > 50000 then t.take 50000 ++ "... [truncated]".data else t

/-- Outcome of the single exhibit-body fetch: the cleaned text extracted
from a 200 response, a non-200 status, or a raised exception. -/
inductive FetchOutcome where
  | ok (cleanText : List Char)
  | httpError (status : Nat)
  | exn (msg : String)

/-- `download_contract_text` (src/ingest_sec.py lines 69-115).  Returns
the (text, metadata) pair the caller sees together with the list of URLs
actually fetched on the executed path.  No exhibit URL (no matching
entry, or a matching entry with a missing or empty URL, the falsy cases
of the Python check) means no request at all; a non-200 response or an
exception falls through to `("", None)` after the one request. -/
def download_contract_text (filing : Filing) (fetch : FetchOutcome) :
    (List Char × Option SecMetadata) × List String :=
  match findExhibit filing.documentFormatFiles with
  | none => (([], none), [])
  | some u =>
    if u.isEmpty then (([], none), [])
    else
      let md : SecMetadata :=
        { source := u
          source_type := "sec_live"
          ticker := filing.ticker
          company := filing.companyName
          filed_at := String.mk (filing.filedAt.data.take 10)
          form_type := filing.formType }
      match fetch with
      | .ok cleanText => ((secTruncate cleanText, some md), [u])
      | .httpError _ => (([], none), [u])
      | .exn _ => (([], none), [u])

/-- Spec-side reading of the exhibit selection: the URLs fetched are
exactly those of the first `documentFormatFiles` entry whose type starts
with "EX-10", when that entry carries a non-empty URL. -/
def fetchedOfSpec (files : List FormatFile) : List String :=
  match files.find? (fun d => startsWithL d.ftype.data "EX-10".data) with
  | none => []
  | some d =>
    match d.documentUrl with
    | none => []
    | some u => if u.isEmpty then [] else [u]

/-- State of the live collection and the run counters of `ingest_sec`. -/
structure SecState where
  storeChunks : List (List Char)
  contracts_added : Nat
  chunks_added : Nat

/-- The per-filing body of the loop in `ingest_sec` (src/ingest_sec.py
lines 157-175), applied to the `(text, metadata)` pair returned by
`download_contract_text`: on truthy text and metadata, split into chunks
and, when chunks are non-empty, append them to the live collection,
persist, and bump both counters.  Also returns the ingestion events of
this filing. -/
def processFiling (st : SecState) (dl : List Char × Option SecMetadata) :
    SecState × List IngestEvent :=
  if dl.1.isEmpty || dl.2.isNone then (st, [])
  else
    let chunks := splitText dl.1
    if chunks.isEmpty then (st, [.process])
    else
      ({ storeChunks := st.storeChunks ++ chunks
         contracts_added := st.contracts_added + 1
         chunks_added := st.chunks_added + chunks.length },
       [.process, .persist])

/-- The filing loop of `ingest_sec` over the download results, threading
the store state and collecting the event trace. -/
def ingest_sec (st : SecState) :
    List (List Char × Option SecMetadata) → SecState × List IngestEvent
  | [] => (st, [])
  | dl :: rest =>
    let step := processFiling st dl
    let next := ingest_sec step.1 rest
    (next.1, step.2 ++ next.2)

/-! ### Theorems about the live download path -/

/-- The exhibit-selection loop returns the URL field of the first
matching entry, read as `List.find?`. -/
theorem findExhibit_eq_find (files : List FormatFile) :
    findExhibit files
      = (files.find? (fun d => startsWithL d.ftype.data "EX-10".data)).bind
          FormatFile.documentUrl := by
  induction files with
  | nil => rfl
  | cons d rest ih =>
    by_cases hd : startsWithL d.ftype.data "EX-10".data <;>
      simp [findExhibit, List.find?_cons, hd, ih]

/-- C9: per filing at most one exhibit body is fetched; the fetched URLs
are exactly those given by the first `documentFormatFiles` entry whose
type starts with "EX-10" (none when that entry has no usable URL), and a
filing with no such entry is skipped without any request. -/
theorem download_fetches_at_most_first_exhibit (filing : Filing) (fetch : FetchOutcome) :
    (download_contract_text filing fetch).2 = fetchedOfSpec filing.documentFormatFiles ∧
    (download_contract_text filing fetch).2.length ≤ 1 ∧
    (filing.documentFormatFiles.find?
        (fun d => startsWithL d.ftype.data "EX-10".data) = none →
      (download_contract_text filing fetch).2 = []) := by
  have heq : (download_contract_text filing fetch).2
      = fetchedOfSpec filing.documentFormatFiles := by
    unfold download_contract_text fetchedOfSpec
    rw [findExhibit_eq_find]
    cases hf : filing.documentFormatFiles.find?
        (fun d => startsWithL d.ftype.data "EX-10".data) with
    | none => rfl
    | some d =>
      simp only [Option.bind]
      cases hu : d.documentUrl with
      | none => rfl
      | some u =>
        by_cases he : u.isEmpty <;> cases fetch <;> simp only [he, if_true, if_false] <;> rfl
  have hlen : (fetchedOfSpec filing.documentFormatFiles).length ≤ 1 := by
    unfold fetchedOfSpec
    split
    · simp
    · split
      · simp
      · split <;> simp
  refine ⟨heq, heq ▸ hlen, fun hnone => ?_⟩
  rw [heq]
  unfold fetchedOfSpec
  rw [hnone]

/-- C9 witness: a filing whose only format file is not an EX-10 exhibit
issues no fetch. -/
theorem download_fetches_at_most_first_exhibit_witness :
    (download_contract_text
        ⟨[⟨"EX-99.1", some "u"⟩], "AAPL", "Apple Inc.", "2024-02-20T00:00:00", "8-K"⟩
        (.ok [])).2 = [] :=
  (download_fetches_at_most_first_exhibit
    ⟨[⟨"EX-99.1", some "u"⟩], "AAPL", "Apple Inc.", "2024-02-20T00:00:00", "8-K"⟩
    (.ok [])).2.2 (by rfl)

/-! ### Theorems about truncation (C6) and the static Document invariant (C10) -/

/-- C6 counterexample: on a 50001-character text the static path stores
the bare 50000-character truncation; the truncation marker appended by
the live path is not a suffix of what the static path stores, so the
claim that both paths append a marker fails. -/
theorem stanford_truncation_has_no_marker :
    (stanfordProcessFile ⟨"p", "f.txt", List.replicate 50001 'a'⟩).map
        StanfordDoc.page_content = some ((List.replicate 50001 'a').take 50000) ∧
    ¬ "... [truncated]".data <:+ (List.replicate 50001 'a').take 50000 := by
  constructor
  · unfold stanfordProcessFile
    simp only [List.length_replicate]
    rw [if_neg (by omega)]
    rfl
  · intro hsuf
    have hmem : ']' ∈ List.replicate 50001 'a' :=
      List.take_subset 50000 _ (hsuf.subset (by decide))
    have := List.eq_of_mem_replicate hmem
    exact absurd this (by decide)

/-- C6 amended: on text over the 50000-character cap the live path
truncates and appends the "... [truncated]" marker, while the static
path stores the text truncated to the cap with no marker appended. -/
theorem truncation_cap_behavior :
    (∀ t : List Char, 50000 < t.length →
      secTruncate t = t.take 50000 ++ "... [truncated]".data) ∧
    (∀ f : RawFile, 50000 < f.text.length →
      (stanfordProcessFile f).map StanfordDoc.page_content = some (f.text.take 50000)) := by
  constructor
  · intro t ht
    unfold secTruncate
    rw [if_pos ht]
  · intro f hf
    have h100 : ¬ f.text.length < 100 := by omega
    simp [stanfordProcessFile, h100]

/-- C6 witness: both truncation conclusions at a concrete
50001-character text. -/
theorem truncation_cap_behavior_witness :
    secTruncate (List.replicate 50001 'a')
      = (List.replicate 50001 'a').take 50000 ++ "... [truncated]".data ∧
    (stanfordProcessFile ⟨"p", "f.txt", List.replicate 50001 'a'⟩).map
        StanfordDoc.page_content = some ((List.replicate 50001 'a').take 50000) :=
  ⟨truncation_cap_behavior.1 (List.replicate 50001 'a')
      (by rw [List.length_replicate]; omega),
   truncation_cap_behavior.2 ⟨"p", "f.txt", List.replicate 50001 'a'⟩
      (by show (50000 : Nat) < (List.replicate 50001 'a').length
          rw [List.length_replicate]; omega)⟩

/-- C10: every Document produced by the static path stores at most 50000
characters while `size_chars` records the full pre-truncation length,
and on some input the recorded length strictly exceeds the stored
length. -/
theorem stanford_doc_size_invariant :
    (∀ f d, stanfordProcessFile f = some d →
      d.page_content.length ≤ 50000 ∧ d.size_chars = f.text.length) ∧
    (∃ f d, stanfordProcessFile f = some d ∧
      d.page_content.length < d.size_chars) := by
  constructor
  · intro f d hd
    unfold stanfordProcessFile at hd
    split at hd
    · exact absurd hd (by simp)
    · cases hd
      refine ⟨?_, rfl⟩
      simp [List.length_take]
  · refine ⟨⟨"p", "f.txt", List.replicate 50001 'a'⟩,
      ⟨(List.replicate 50001 'a').take 50000, "f.txt", classifyFilename "f.txt",
        "stanford_mcc", "p", 50001⟩, ?_, ?_⟩
    · unfold stanfordProcessFile
      simp only [List.length_replicate]
      rw [if_neg (by omega)]
    · simp only [List.length_take, List.length_replicate]
      omega

/-- C10 witness: the invariant conclusions at a concrete 100-character
document. -/
theorem stanford_doc_size_invariant_witness :
    ((List.replicate 100 'a' : List Char).take 50000).length ≤ 50000 ∧
    (100 : Nat) = (List.replicate 100 'a' : List Char).length :=
  stanford_doc_size_invariant.1 ⟨"p", "f.txt", List.replicate 100 'a'⟩
    ⟨(List.replicate 100 'a').take 50000, "f.txt", classifyFilename "f.txt",
      "stanford_mcc", "p", 100⟩
    (by simp [stanfordProcessFile])

/-! ### Theorems about the minimum-length gate (C1), idempotence (C4)
and persistence granularity (C5) -/

/-- Sample metadata for a live filing, used by concrete evaluations. -/
def sampleMd : SecMetadata :=
  ⟨"https://sec.example/ex10.htm", "sec_live", "AAPL", "Apple Inc.", "2024-02-20", "8-K"⟩

/-- Sample 120-character filing body. -/
def sampleBody : List Char := List.replicate 120 'a'

/-- C1 counterexample: a live filing whose downloaded text is 50
characters long, well under the 100-character minimum, is still
ingested: the live loop checks only truthiness of the text, so a
document is created, a chunk is stored and both counters move. -/
theorem live_path_ingests_short_document :
    (List.replicate 50 'a').length < 100 ∧
    (processFiling ⟨[], 0, 0⟩ (List.replicate 50 'a', some sampleMd)).1.chunks_added = 1 ∧
    (processFiling ⟨[], 0, 0⟩ (List.replicate 50 'a', some sampleMd)).1.storeChunks.length = 1 := by
  refine ⟨by decide, by decide, by decide⟩

/-- C1 amended: the static path excludes every document whose normalized
text is shorter than 100 characters (no Document is created and the
loaded batch is unchanged), while the live path excludes a filing only
when its downloaded text is empty or its metadata is missing. -/
theorem min_length_exclusion :
    (∀ f : RawFile, f.text.length < 100 → stanfordProcessFile f = none) ∧
    (∀ files (f : RawFile), f.text.length < 100 →
      load_stanford_contracts (files ++ [f]) = load_stanford_contracts files) ∧
    (∀ st md, (processFiling st ([], md)).1 = st) ∧
    (∀ st t, (processFiling st (t, none)).1 = st) := by
  have h1 : ∀ f : RawFile, f.text.length < 100 → stanfordProcessFile f = none := by
    intro f hf
    unfold stanfordProcessFile
    rw [if_pos hf]
  refine ⟨h1, fun files f hf => ?_, fun st md => ?_, fun st t => ?_⟩
  · unfold load_stanford_contracts
    rw [List.filterMap_append]
    simp [h1 f hf]
  · simp [processFiling]
  · simp [processFiling]

/-- C1 witness: a concrete 50-character file is excluded by the static
path and leaves the loaded batch unchanged. -/
theorem min_length_exclusion_witness :
    stanfordProcessFile ⟨"p", "short.txt", List.replicate 50 'a'⟩ = none ∧
    load_stanford_contracts
        ([⟨"q", "long.txt", List.replicate 200 'a'⟩] ++ [⟨"p", "short.txt", List.replicate 50 'a'⟩])
      = load_stanford_contracts [⟨"q", "long.txt", List.replicate 200 'a'⟩] :=
  ⟨min_length_exclusion.1 ⟨"p", "short.txt", List.replicate 50 'a'⟩ (by decide),
   min_length_exclusion.2.1 [⟨"q", "long.txt", List.replicate 200 'a'⟩]
     ⟨"p", "short.txt", List.replicate 50 'a'⟩ (by decide)⟩

set_option maxRecDepth 8000 in
/-- C4 counterexample: processing the same filing (same URL, same body)
a second time appends its chunks again, so the live collection chunk
count strictly increases instead of staying unchanged. -/
theorem reingest_adds_chunks_again :
    (processFiling (processFiling ⟨[], 0, 0⟩ (sampleBody, some sampleMd)).1
        (sampleBody, some sampleMd)).1.storeChunks.length
      > (processFiling ⟨[], 0, 0⟩ (sampleBody, some sampleMd)).1.storeChunks.length := by
  decide

/-- C4 amended: re-ingesting a filing with non-empty text always appends
its chunks to the live collection: the chunk count grows by the number
of chunks of the text, which is positive, whatever the prior state — the
loop performs no deduplication by filing id. -/
theorem reingest_appends_chunks (st : SecState) (t : List Char) (md : SecMetadata)
    (ht : t ≠ []) :
    (processFiling st (t, some md)).1.storeChunks.length
      = st.storeChunks.length + (splitText t).length ∧
    0 < (splitText t).length := by
  have hne := splitText_ne_nil t ht
  refine ⟨?_, List.length_pos.mpr hne⟩
  simp [processFiling, ht, hne]

/-- C4 witness: the chunk-count growth at a concrete 120-character
filing over the empty collection. -/
theorem reingest_appends_chunks_witness :
    (processFiling ⟨[], 0, 0⟩ (sampleBody, some sampleMd)).1.storeChunks.length
      = ([] : List (List Char)).length + (splitText sampleBody).length ∧
    0 < (splitText sampleBody).length :=
  reingest_appends_chunks ⟨[], 0, 0⟩ sampleBody sampleMd (by decide)

/-- Sample static files long enough to be loaded. -/
def bigFileA : RawFile := ⟨"p1", "a.txt", List.replicate 100 'a'⟩

/-- A second sample static file long enough to be loaded. -/
def bigFileB : RawFile := ⟨"p2", "b.txt", List.replicate 100 'b'⟩

/-- C5 counterexample: a static batch of two documents processes the
second document before any durable write happens — persistence is a
single end-of-batch operation, not per-document. -/
theorem stanford_batch_not_per_document :
    perDocPersist (stanfordTrace [bigFileA, bigFileB]) = false := by
  decide

/-- C5 amended: the live loop persists after every ingested filing, so
its trace is per-document; the static batch writes once at the end, so
whenever at least two documents load, its trace is not per-document. -/
theorem persistence_granularity :
    (∀ st dls, perDocPersist (ingest_sec st dls).2 = true) ∧
    (∀ files, 2 ≤ (load_stanford_contracts files).length →
      perDocPersist (stanfordTrace files) = false) := by
  constructor
  · intro st dls
    induction dls generalizing st with
    | nil => rfl
    | cons dl rest ih =>
      show perDocPersist
        ((processFiling st dl).2 ++ (ingest_sec (processFiling st dl).1 rest).2) = true
      by_cases h : (dl.1.isEmpty || dl.2.isNone) = true
      · simpa [processFiling, h, perDocPersist] using ih st
      · have ht : dl.1 ≠ [] := by
          intro he
          simp [he] at h
        have hne := splitText_ne_nil dl.1 ht
        simpa [processFiling, h, hne, perDocPersist, perDocAux] using ih _
  · intro files h2
    rcases hd : load_stanford_contracts files with _ | ⟨d1, _ | ⟨d2, rest2⟩⟩
    · rw [hd] at h2
      simp at h2
    · rw [hd] at h2
      simp at h2
    · simp [stanfordTrace, hd, perDocPersist, perDocAux]

/-- C5 witness: a concrete three-document static batch is not persisted
per-document. -/
theorem persistence_granularity_witness :
    perDocPersist (stanfordTrace [bigFileA, bigFileB, bigFileA]) = false :=
  persistence_granularity.2 [bigFileA, bigFileB, bigFileA] (by decide)

end LegalDoc
